import Mathlib

/-!
Verification of the WireGuard multi-client web UI backend
(`src/backend` of Arthur2500/wireguard-multiclient-webui).

Shallow embedding conventions:
* Python strings are Lean `String`s; character-level pipelines work on
  `List Char` (`String.data`).
* Machine integers are `Nat`/`Int`; IPv4 addresses are `Nat` values below
  `2 ^ 32`.
* Database rows are Lean structures; nullable columns are `Option` fields;
  Python truthiness of a string column is modelled as `≠ ""` where the code
  relies on it.
* `datetime` values are modelled as Unix epoch seconds (`Int`).
* Fallible subprocess interaction is modelled by explicit outcome types.
-/

namespace WgWebui

/-! ### Character helpers shared by the embedded string pipelines -/

/-- A lowercase ASCII letter or an ASCII digit: the character class
`[a-z0-9]`. -/
def isLowerAlnum (c : Char) : Bool :=
  (('a' ≤ c) && (c ≤ 'z')) || (('0' ≤ c) && (c ≤ '9'))

/-- The character class `[a-z0-9-]` kept by the sanitizer's regex
substitution. -/
def isLowerAlnumHyphen (c : Char) : Bool :=
  isLowerAlnum c || (c = '-')

/-- Model of Python `str.lower` applied character-wise (ASCII fragment; the
properties proved below do not depend on the behaviour on non-ASCII input
because every non-`[a-z0-9-]` character is replaced by a hyphen right
after lowering). -/
def pyLowerChar (c : Char) : Char := c.toLower

/-- Model of Python `str.isalnum` on the characters reachable in this code
(ASCII alphanumerics). -/
def pyIsAlnum (c : Char) : Bool := c.isAlphanum

/-- Whitespace characters stripped by Python `str.strip()`. -/
def isPySpace (c : Char) : Bool :=
  c = ' ' || c = '\t' || c = '\n' || c = '\r' || c = '\x0b' || c = '\x0c'

/-- Generic split of a character list on a separator character, mirroring
Python `str.split(sep)`: always returns at least one (possibly empty)
segment. -/
def splitOnChar (sep : Char) : List Char → List (List Char)
  | [] => [[]]
  | c :: cs =>
    if c = sep then
      [] :: splitOnChar sep cs
    else
      match splitOnChar sep cs with
      | [] => [[c]]
      | h :: t => (c :: h) :: t

/-- Split on newlines, as `str.split('\n')` does. -/
def splitNl (s : List Char) : List (List Char) := splitOnChar '\n' s

/-- Join segments with a separator (inverse of `splitOnChar` on
separator-free segments); models `sep.join(segments)`. -/
def joinSep (sep : List Char) : List (List Char) → List Char
  | [] => []
  | [l] => l
  | l :: ls => l ++ sep ++ joinSep sep ls

/-- Join segments with a separator character. -/
def joinWithChar (sep : Char) (ls : List (List Char)) : List Char :=
  joinSep [sep] ls

/-- `lst.strip() `'s left half: drop leading Python whitespace. -/
def lstripSpaces (s : List Char) : List Char := s.dropWhile isPySpace

/-- `str.strip()`'s right half: drop trailing Python whitespace. -/
def rstripSpaces (s : List Char) : List Char :=
  (s.reverse.dropWhile isPySpace).reverse

/-- Model of Python `str.strip()` (no arguments: strips whitespace). -/
def pyStrip (s : List Char) : List Char := rstripSpaces (lstripSpaces s)

/-- Does `pre` occur at the start of `s`? (helper for substring search). -/
def leadsWith : List Char → List Char → Bool
  | [], _ => true
  | _ :: _, [] => false
  | a :: as, b :: bs => (a = b) && leadsWith as bs

/-- Does `needle` occur somewhere inside `hay`?  Models Python's
`needle in hay` on strings. -/
def containsSub (needle : List Char) : List Char → Bool
  | [] => leadsWith needle []
  | h :: t => leadsWith needle (h :: t) || containsSub needle t

/-- Python `needle in hay` for `String`s. -/
def pyContains (hay needle : String) : Bool := containsSub needle.data hay.data

/-- The ASCII digit character for a value `d < 10`. -/
def digitChar (d : Nat) : Char := Char.ofNat (48 + d)

/-- Fuel-bounded digit extraction (structural recursion so that concrete
values evaluate inside the kernel; the fuel `n + 1` used below always
suffices). -/
def natDigitsCore : Nat → Nat → List Char
  | 0, _ => []
  | fuel + 1, n =>
    if n < 10 then [digitChar n]
    else natDigitsCore fuel (n / 10) ++ [digitChar (n % 10)]

/-- Decimal rendering of a natural number (the digits of `str(n)` /
f-string interpolation of an integer column). -/
def natDigits (n : Nat) : List Char := natDigitsCore (n + 1) n

/-- Decimal rendering as a `String`. -/
def natStr (n : Nat) : String := ⟨natDigits n⟩

/-! ### `sanitize_interface_name` (src/backend/app/utils/helpers.py:229-263) -/

/-- One step of `re.sub(r'[^a-z0-9\-]', '-', s)`: keep `[a-z0-9-]`, replace
everything else with a hyphen. -/
def subChar (c : Char) : Char := if isLowerAlnumHyphen c then c else '-'

/-- `re.sub(r'-+', '-', s)`: collapse each run of consecutive hyphens to a
single hyphen. -/
def collapseHyphens : List Char → List Char
  | [] => []
  | a :: rest =>
    match rest with
    | [] => [a]
    | b :: _ =>
      if a = '-' ∧ b = '-' then collapseHyphens rest
      else a :: collapseHyphens rest

/-- `str.strip('-')`: remove leading and trailing hyphens. -/
def stripHyphens (s : List Char) : List Char :=
  ((s.dropWhile (· = '-')).reverse.dropWhile (· = '-')).reverse

/-- `str.rstrip('-')`: remove trailing hyphens. -/
def rstripHyphens (s : List Char) : List Char :=
  (s.reverse.dropWhile (· = '-')).reverse

/-- Stages 1-4 of `sanitize_interface_name`: lowercase, regex-substitute,
collapse hyphen runs, strip leading/trailing hyphens. -/
def sanitizeStem (s : List Char) : List Char :=
  stripHyphens (collapseHyphens ((s.map pyLowerChar).map subChar))

/-- Stage 5: `if sanitized and not sanitized[0].isalnum(): 'wg-' + sanitized`. -/
def prefixIfBadStart (s : List Char) : List Char :=
  match s with
  | [] => []
  | c :: cs => if pyIsAlnum c then c :: cs else 'w' :: 'g' :: '-' :: c :: cs

/-- Stage 6: `if len(sanitized) > max_length: sanitized[:max_length].rstrip('-')`. -/
def truncateStage (maxLength : Nat) (s : List Char) : List Char :=
  if s.length > maxLength then rstripHyphens (s.take maxLength) else s

/-- Stage 7: `if not sanitized or not sanitized[0].isalnum(): 'wg0'`. -/
def fallbackStage (s : List Char) : List Char :=
  match s with
  | [] => 'w' :: 'g' :: '0' :: []
  | c :: cs => if pyIsAlnum c then c :: cs else 'w' :: 'g' :: '0' :: []

/-- `sanitize_interface_name(name, max_length)` on character lists. -/
def sanitizeCore (maxLength : Nat) (s : List Char) : List Char :=
  fallbackStage (truncateStage maxLength (prefixIfBadStart (sanitizeStem s)))

/-- `sanitize_interface_name(name, max_length=15)`
(src/backend/app/utils/helpers.py:229-263). -/
def sanitizeInterfaceName (name : String) (maxLength : Nat) : String :=
  ⟨sanitizeCore maxLength name.data⟩

/-- The spec's target pattern `^[a-z0-9][a-z0-9-]{0,14}$`, as a decidable
check on character lists. -/
def matchesInterfacePattern (s : List Char) : Bool :=
  match s with
  | [] => false
  | c :: cs => isLowerAlnum c && cs.all isLowerAlnumHyphen && s.length ≤ 15

/-! ### Data model (src/backend/app/models/group.py, client.py)

Only the columns read by the verified operations are embedded.  Nullable
columns are `Option`; where the Python code relies on string truthiness the
embedding tests `≠ ""` (the `None` case is the `Option.none` case). -/

/-- One row of the `clients` table (src/backend/app/models/client.py). -/
structure Client where
  name : String
  private_key : String
  public_key : String
  preshared_key : Option String
  assigned_ip : String
  assigned_ip_v6 : Option String
  allowed_ips : String
  can_address_peers : Bool
  dns_override : Option String
  is_active : Bool
  last_handshake : Option Int
  total_received : Int
  total_sent : Int
deriving Repr, DecidableEq

/-- One row of the `groups` table (src/backend/app/models/group.py). -/
structure Group where
  id : Nat
  name : String
  server_private_key : String
  server_public_key : String
  ip_range : String
  server_ip : String
  ip_range_v6 : Option String
  server_ip_v6 : Option String
  listen_port : Nat
  dns : String
  endpoint : String
  persistent_keepalive : Nat
  mtu : Nat
  allow_client_to_client : Bool
  is_running : Bool
deriving Repr, DecidableEq

/-- F-string interpolation of a nullable column: Python renders `None` as
the text `None`. -/
def optStr : Option String → String
  | some s => s
  | none => "None"

/-- `Group.get_subnet_mask` / `get_subnet_mask_v6`
(src/backend/app/models/group.py:99-109): the textual prefix length of a
CIDR string, i.e. the part after the `/`.  (The source parses the range
with `ipaddress` and returns `str(network.prefixlen)`; for the well-formed
`a.b.c.d/p` strings stored in `ip_range` that is exactly the suffix after
the slash, which is what every caller interpolates into config text.) -/
def subnetMask (r : String) : String :=
  ⟨(r.data.dropWhile (fun c => ¬ c = '/')).drop 1⟩

/-! ### IPv4 address allocator
(`Group.get_next_available_ip`, src/backend/app/models/group.py:53-70)

Addresses are modelled numerically: an IPv4 address is its 32-bit value as
a `Nat`, and the stored `ip_range` string is modelled by the pair
`(addr, plen)` it parses to.  A client contributes its parsed
`assigned_ip` when the column is truthy (`Option.some`). -/

/-- The allocator's view of a client row: only the active flag and the
(possibly missing) assigned IPv4 address matter. -/
structure AllocClient where
  is_active : Bool
  assigned_ip : Option Nat
deriving Repr, DecidableEq

/-- `ip_network(..., strict=False)` masks the host bits: the network base
address. -/
def networkBase (addr plen : Nat) : Nat :=
  addr / 2 ^ (32 - plen) * 2 ^ (32 - plen)

/-- How many addresses `IPv4Network.hosts()` yields: all addresses except
network and broadcast for prefixes up to /30; both addresses of a /31; the
single address of a /32. -/
def hostCount (plen : Nat) : Nat :=
  if 31 ≤ plen then 2 ^ (32 - plen) else 2 ^ (32 - plen) - 2

/-- The first address yielded by `IPv4Network.hosts()`: the base address
for /31 and /32 networks, the base address plus one otherwise. -/
def hostsFirst (addr plen : Nat) : Nat :=
  if 31 ≤ plen then networkBase addr plen else networkBase addr plen + 1

/-- The ascending list of host addresses of the network
(`IPv4Network.hosts()` iterates in ascending numeric order). -/
def hostsList (addr plen : Nat) : List Nat :=
  (List.range (hostCount plen)).map (fun i => hostsFirst addr plen + i)

/-- `Group.get_next_available_ip` (src/backend/app/models/group.py:53-70):
collect the server address and every client's assigned address (active or
not), then return the first host of the range not in that set, or `none`
when the range is exhausted. -/
def getNextAvailableIp (addr plen serverIp : Nat) (clients : List AllocClient) :
    Option Nat :=
  let used := serverIp :: clients.filterMap (fun c => c.assigned_ip)
  (hostsList addr plen).find? (fun ip => ! used.contains ip)

/-! ### Server config renderer
(`Group.generate_server_config`, src/backend/app/models/group.py:136-228)

The Python code accumulates the configuration text chunk by chunk, every
chunk ending with a newline; the embedding records the same text as the
list of its newline-separated lines and joins them
(`generateServerConfig`), which yields the identical character sequence. -/

/-- One client-to-client DROP rule appended to `PostUp`
(src/backend/app/models/group.py:174-183). -/
def dropRuleV4 (g : Group) (c : Client) : String :=
  "iptables -A FORWARD -i %i -s " ++ c.assigned_ip ++ " -d " ++ g.ip_range
    ++ " ! -d " ++ g.server_ip ++ " -j DROP"

/-- The matching deletion rule inserted at the front of `PostDown`. -/
def dropRuleDelV4 (g : Group) (c : Client) : String :=
  "iptables -D FORWARD -i %i -s " ++ c.assigned_ip ++ " -d " ++ g.ip_range
    ++ " ! -d " ++ g.server_ip ++ " -j DROP"

/-- IPv6 variant of the DROP rule (src/backend/app/models/group.py:198-208). -/
def dropRuleV6 (g : Group) (c : Client) : String :=
  "ip6tables -A FORWARD -i %i -s " ++ optStr c.assigned_ip_v6 ++ " -d "
    ++ optStr g.ip_range_v6 ++ " ! -d " ++ optStr g.server_ip_v6 ++ " -j DROP"

/-- IPv6 variant of the deletion rule. -/
def dropRuleDelV6 (g : Group) (c : Client) : String :=
  "ip6tables -D FORWARD -i %i -s " ++ optStr c.assigned_ip_v6 ++ " -d "
    ++ optStr g.ip_range_v6 ++ " ! -d " ++ optStr g.server_ip_v6 ++ " -j DROP"

/-- The clients whose traffic to other peers is dropped: all active
clients when the group forbids client-to-client traffic, otherwise the
active clients with `can_address_peers` unset
(src/backend/app/models/group.py:170-183). -/
def restrictedClients (g : Group) (active : List Client) : List Client :=
  if g.allow_client_to_client then
    active.filter (fun c => ¬ c.can_address_peers)
  else active

/-- The `PostUp` rule list (src/backend/app/models/group.py:150-208):
three base NAT/forwarding rules, the per-client DROP rules, then — when
IPv6 is configured — the three `ip6tables` base rules and the per-client
IPv6 DROP rules. -/
def postUpRules (g : Group) (active : List Client) : List String :=
  let rules :=
    ["iptables -t nat -A POSTROUTING ! -o %i -j MASQUERADE",
     "iptables -A FORWARD -i %i -j ACCEPT",
     "iptables -A FORWARD -o %i -j ACCEPT"]
    ++ (restrictedClients g active).map (dropRuleV4 g)
  match g.ip_range_v6 with
  | none => rules
  | some _ =>
    rules
    ++ ["ip6tables -t nat -A POSTROUTING ! -o %i -j MASQUERADE",
        "ip6tables -A FORWARD -i %i -j ACCEPT",
        "ip6tables -A FORWARD -o %i -j ACCEPT"]
    ++ ((restrictedClients g active).filter
          (fun c => c.assigned_ip_v6.isSome)).map (dropRuleV6 g)

/-- The `PostDown` rule list: per-client deletion rules are inserted at
position 0 one by one (so they end up in reverse client order), in front
of the three base rules; the IPv6 base rules are appended at the end and
the IPv6 deletion rules are then inserted at the front
(src/backend/app/models/group.py:159-208). -/
def postDownRules (g : Group) (active : List Client) : List String :=
  let rules :=
    ((restrictedClients g active).map (dropRuleDelV4 g)).reverse
    ++ ["iptables -t nat -D POSTROUTING ! -o %i -j MASQUERADE",
        "iptables -D FORWARD -i %i -j ACCEPT",
        "iptables -D FORWARD -o %i -j ACCEPT"]
  match g.ip_range_v6 with
  | none => rules
  | some _ =>
    (((restrictedClients g active).filter
        (fun c => c.assigned_ip_v6.isSome)).map (dropRuleDelV6 g)).reverse
    ++ rules
    ++ ["ip6tables -t nat -D POSTROUTING ! -o %i -j MASQUERADE",
        "ip6tables -D FORWARD -i %i -j ACCEPT",
        "ip6tables -D FORWARD -o %i -j ACCEPT"]

/-- The `Address = ...` value: IPv4 address with prefix length, plus the
IPv6 pair when both IPv6 columns are set
(src/backend/app/models/group.py:138-141). -/
def serverAddressValue (g : Group) : List Char :=
  g.server_ip.data ++ '/' :: (subnetMask g.ip_range).data
  ++ (match g.server_ip_v6, g.ip_range_v6 with
      | some s6, some r6 => ", ".data ++ s6.data ++ '/' :: (subnetMask r6).data
      | _, _ => [])

/-- The `[Peer]` block appended for one active client
(src/backend/app/models/group.py:215-226): a blank line, the header, a
name comment, the public key, `AllowedIPs` with `/32` (and `/128`) host
masks, and the preshared key when present. -/
def peerBlockLines (c : Client) : List (List Char) :=
  [[],
   "[Peer]".data,
   "# ".data ++ c.name.data,
   "PublicKey = ".data ++ c.public_key.data,
   "AllowedIPs = ".data ++ c.assigned_ip.data ++ "/32".data
     ++ (match c.assigned_ip_v6 with
         | some v6 => ", ".data ++ v6.data ++ "/128".data
         | none => [])]
  ++ (match c.preshared_key with
      | some k => ["PresharedKey = ".data ++ k.data]
      | none => [])

/-- The newline-separated lines of `Group.generate_server_config`
(src/backend/app/models/group.py:136-228).  The rendered text ends with a
newline, hence the final empty line. -/
def serverConfigLines (g : Group) (clients : List Client) : List (List Char) :=
  let active := clients.filter (fun c => c.is_active)
  ["[Interface]".data,
   "PrivateKey = ".data ++ g.server_private_key.data,
   "Address = ".data ++ serverAddressValue g,
   "ListenPort = ".data ++ natDigits g.listen_port,
   "PostUp = ".data ++ joinSep "; ".data ((postUpRules g active).map String.data),
   "PostDown = ".data ++ joinSep "; ".data ((postDownRules g active).map String.data)]
  ++ active.flatMap peerBlockLines
  ++ [[]]

/-- `Group.generate_server_config` as the rendered text. -/
def generateServerConfig (g : Group) (clients : List Client) : String :=
  ⟨joinWithChar '\n' (serverConfigLines g clients)⟩

/-- Number of lines of `s` that consist exactly of the text `hdr`; a
`[Interface]`/`[Peer]` stanza of the rendered config starts with such a
line. -/
def countHeaderLines (hdr : String) (s : String) : Nat :=
  (splitNl s.data).count hdr.data

/-! ### Client config renderer
(`Client.generate_client_config`, src/backend/app/models/client.py:73-126) -/

/-- The subnet routes of the group: the IPv4 range plus the IPv6 range
when configured (src/backend/app/models/client.py:90-93). -/
def subnetRoutes (g : Group) : String :=
  g.ip_range ++ (match g.ip_range_v6 with
                 | some r6 => ", " ++ r6
                 | none => "")

/-- The `AllowedIPs` value of the client config
(src/backend/app/models/client.py:78-93): the client's own `allowed_ips`
unless peer addressing is restricted, in which case full-tunnel routing is
kept when `0.0.0.0/0` was requested and otherwise only the group's subnet
routes are used. -/
def computeAllowedIps (c : Client) (g : Group) : String :=
  if ¬ c.can_address_peers ∨ ¬ g.allow_client_to_client then
    if ¬ c.allowed_ips = "" ∧ pyContains c.allowed_ips "0.0.0.0/0" then
      "0.0.0.0/0, ::/0"
    else
      subnetRoutes g
  else c.allowed_ips

/-- `dns = self.dns_override or group.dns`: Python `or` falls through on
falsy (absent or empty) overrides. -/
def effectiveDns (c : Client) (g : Group) : String :=
  match c.dns_override with
  | some d => if d = "" then g.dns else d
  | none => g.dns

/-- `Client.generate_client_config` (src/backend/app/models/client.py:73-126),
assembled chunk by chunk exactly as the source appends f-strings. -/
def generateClientConfig (c : Client) (g : Group) : String :=
  let dns := effectiveDns c g
  let address :=
    c.assigned_ip ++ "/" ++ subnetMask g.ip_range
    ++ (match c.assigned_ip_v6, g.ip_range_v6 with
        | some a6, some r6 => ", " ++ a6 ++ "/" ++ subnetMask r6
        | _, _ => "")
  "[Interface]\nPrivateKey = " ++ c.private_key ++ "\nAddress = " ++ address ++ "\n"
  ++ (if ¬ dns = "" then "DNS = " ++ dns ++ "\n" else "")
  ++ (if ¬ g.mtu = 0 then "MTU = " ++ natStr g.mtu ++ "\n" else "")
  ++ "\n[Peer]\nPublicKey = " ++ g.server_public_key
  ++ "\nAllowedIPs = " ++ computeAllowedIps c g ++ "\n"
  ++ (match c.preshared_key with
      | some k => "PresharedKey = " ++ k ++ "\n"
      | none => "")
  ++ (if ¬ g.endpoint = "" then
        "Endpoint = " ++ g.endpoint ++ ":" ++ natStr g.listen_port ++ "\n"
      else "")
  ++ (if ¬ g.persistent_keepalive = 0 then
        "PersistentKeepalive = " ++ natStr g.persistent_keepalive ++ "\n"
      else "")

/-! ### Config file paths
(`Group.get_group_config_dir` / `save_server_config` /
`get_wireguard_interface_name`, src/backend/app/models/group.py:230-291) -/

/-- `os.path.join` on POSIX for two components. -/
def pyPathJoin (a b : String) : String :=
  if b.data.head? = some '/' then b
  else if a = "" then b
  else if a.data.getLast? = some '/' then a ++ b
  else a ++ "/" ++ b

/-- The per-group directory name:
`self.name.lower().replace(' ', '-').replace('/', '-')`
(src/backend/app/models/group.py:238). -/
def groupDirname (name : String) : String :=
  ⟨((name.data.map pyLowerChar).map (fun c => if c = ' ' then '-' else c)).map
      (fun c => if c = '/' then '-' else c)⟩

/-- `Group.get_group_config_dir` (src/backend/app/models/group.py:230-239):
`None` when `WG_CONFIG_PATH` is unset/empty, else
`<config_root>/<group-dirname>`. -/
def getGroupConfigDir (configPath : String) (g : Group) : Option String :=
  if configPath = "" then none
  else some (pyPathJoin configPath (groupDirname g.name))

/-- The file path `save_server_config` writes the rendered server config
to (src/backend/app/models/group.py:241-257): `<group-dir>/server.conf`. -/
def serverConfigWritePath (configPath : String) (g : Group) : Option String :=
  (getGroupConfigDir configPath g).map (fun d => pyPathJoin d "server.conf")

/-- The server-config write performed by `Group.save_server_config`
(path and content); `none` when `WG_CONFIG_PATH` is unset. -/
def saveServerConfigWrite (configPath : String) (g : Group)
    (clients : List Client) : Option (String × String) :=
  (serverConfigWritePath configPath g).map
    (fun p => (p, generateServerConfig g clients))

/-- `Group.get_wireguard_interface_name`
(src/backend/app/models/group.py:288-291): `wg<id>`. -/
def interfaceName (g : Group) : String := "wg" ++ natStr g.id

/-! ### Interface stop (`stop_wireguard_interface`,
src/backend/app/utils/wireguard.py:130-158, and `Group.stop_wireguard`,
src/backend/app/models/group.py:310-319) -/

/-- Outcome of running the external teardown command
(`subprocess.run(['wg-quick', 'down', ...])`). -/
inductive ProcOutcome where
  /-- The process ran and exited with the given return code. -/
  | completed (returncode : Int)
  /-- `FileNotFoundError`: the external tool is not installed. -/
  | toolMissing
  /-- Any other exception while invoking the tool. -/
  | failed
deriving Repr, DecidableEq

/-- `stop_wireguard_interface` (src/backend/app/utils/wireguard.py:130-158):
a completed run counts as success whatever its exit status ("interface
might not be running, still consider it success"); only a missing tool or
an unexpected exception is failure. -/
def stopWireguardInterface : ProcOutcome → Bool
  | .completed rc => if rc = 0 then true else true
  | .toolMissing => false
  | .failed => false

/-- `Group.stop_wireguard` (src/backend/app/models/group.py:310-319):
returns the tool result and persists `is_running = False` on success.
Result: `(success, new is_running flag)`. -/
def stopWireguard (isRunning : Bool) (outcome : ProcOutcome) : Bool × Bool :=
  let success := stopWireguardInterface outcome
  (success, if success then false else isRunning)

/-! ### Statistics dump parser
(`get_wireguard_stats`, src/backend/app/utils/wireguard.py:175-223) -/

/-- Per-peer counters parsed from one dump line. -/
structure PeerStats where
  latest_handshake : Int
  received_bytes : Int
  sent_bytes : Int
deriving Repr, DecidableEq

/-- Numeric value of an ASCII digit. -/
def digitVal (c : Char) : Nat := c.toNat - 48

/-- Parse a non-empty all-digit string. -/
def parseDigits (l : List Char) : Option Nat :=
  if l = [] then none
  else l.foldlM (fun acc c => if c.isDigit then some (acc * 10 + digitVal c) else none) 0

/-- Model of Python `int(s)`: strip whitespace, optional sign, decimal
digits; anything else raises (`none`). -/
def pyIntParse (s : List Char) : Option Int :=
  match pyStrip s with
  | '-' :: rest => (parseDigits rest).map (fun n => -(n : Int))
  | '+' :: rest => (parseDigits rest).map (fun n => (n : Int))
  | t => (parseDigits t).map (fun n => (n : Int))

/-- `int(x) if x else 0`: an empty field parses as zero
(src/backend/app/utils/wireguard.py:206-208). -/
def fieldInt (s : List Char) : Option Int :=
  if s = [] then some 0 else pyIntParse s

/-- `line.split('\t')`. -/
def splitTab (l : List Char) : List (List Char) := splitOnChar '\t' l

/-- A tab-separated dump line made of the given fields (used to state
properties of the parser over arbitrary field values). -/
def joinTab (fields : List (List Char)) : List Char := joinSep ['\t'] fields

/-- The sent-bytes counter of a parsed line, as a function of the fields
after the received-bytes field (positions 7 and up):
`int(parts[6]) if len(parts) > 6 and parts[6] else 0` — a missing seventh
field is 0, an empty one is 0 via `fieldInt`. -/
def sentFieldValue (rest : List (List Char)) : Option Int :=
  match rest with
  | [] => some 0
  | s :: _ => fieldInt s

/-- Python dict assignment `peers[k] = v`: replace an existing binding for
`k`, else append. -/
def dictInsert (k : List Char) (v : PeerStats) :
    List (List Char × PeerStats) → List (List Char × PeerStats)
  | [] => [(k, v)]
  | (k', v') :: t => if k' = k then (k, v) :: t else (k', v') :: dictInsert k v t

/-- Processing of one dump line (src/backend/app/utils/wireguard.py:196-214).
`none`: an exception escaped (a non-numeric counter field);
`some none`: the line is skipped (empty, or fewer than 6 tab-separated
fields); `some (some (k, s))`: the line yields the entry `k ↦ s`. -/
def parseDumpLine (line : List Char) :
    Option (Option (List Char × PeerStats)) :=
  if line = [] then some none
  else
    let parts := splitTab line
    if 6 ≤ parts.length then
      match fieldInt (parts.getD 4 []), fieldInt (parts.getD 5 []),
            (if 6 < parts.length then fieldInt (parts.getD 6 []) else some 0) with
      | some hs, some rcv, some snt =>
        some (some (parts.getD 0 [], ⟨hs, rcv, snt⟩))
      | _, _, _ => none
    else some none

/-- Process the dump lines after the interface header in order,
accumulating the peers dict; any exception aborts the whole parse
(the caller then returns `None`). -/
def processDumpLines (ls : List (List Char))
    (acc : List (List Char × PeerStats)) :
    Option (List (List Char × PeerStats)) :=
  match ls with
  | [] => some acc
  | l :: rest =>
    match parseDumpLine l with
    | none => none
    | some none => processDumpLines rest acc
    | some (some (k, v)) => processDumpLines rest (dictInsert k v acc)

/-- The pure part of `get_wireguard_stats`
(src/backend/app/utils/wireguard.py:192-216): strip the tool's stdout,
split into lines, skip the interface header line, parse the peer lines. -/
def getWireguardStats (stdout : List Char) :
    Option (List (List Char × PeerStats)) :=
  processDumpLines ((splitNl (pyStrip stdout)).drop 1) []

/-! ### Statistics merge
(`Group.update_client_stats`, src/backend/app/models/group.py:321-349) -/

/-- `datetime.fromtimestamp(epoch, tz=timezone.utc)` with timestamps
modelled as epoch seconds. -/
def utcOfEpoch (e : Int) : Int := e

/-- The update applied to one client row: only active clients whose public
key appears in the dump are touched; their counters are replaced wholesale
and the handshake timestamp is set only for a positive epoch
(src/backend/app/models/group.py:336-346). -/
def updateOneClient (stats : List (List Char × PeerStats)) (c : Client) : Client :=
  if c.is_active then
    match stats.lookup c.public_key.data with
    | some ps =>
      { c with
        last_handshake :=
          if 0 < ps.latest_handshake then some (utcOfEpoch ps.latest_handshake)
          else c.last_handshake,
        total_received := ps.received_bytes,
        total_sent := ps.sent_bytes }
    | none => c
  else c

/-- `Group.update_client_stats` (src/backend/app/models/group.py:321-349):
fails fast on a stopped group, fails when the dump could not be obtained
*or is empty* (`if not stats: return False` — Python falsiness covers both
`None` and the empty dict), otherwise merges the dump into the client
rows.  Result: `(return value, client rows after the call)`. -/
def updateClientStats (isRunning : Bool) (clients : List Client)
    (stats : Option (List (List Char × PeerStats))) : Bool × List Client :=
  if ¬ isRunning then (false, clients)
  else
    match stats with
    | none => (false, clients)
    | some [] => (false, clients)
    | some m => (true, clients.map (updateOneClient m))

/-! ### Group creation (`create_group`,
src/backend/app/routes/groups.py:119-137) -/

/-- The request fields of `create_group` relevant to the listen port. -/
structure GroupCreatePayload where
  name : String
  listen_port : Option Nat
deriving Repr, DecidableEq

/-- The listen port stored for a newly created group:
`data.get('listen_port', 51820)` (src/backend/app/routes/groups.py:128) —
the literal default, with no dependence on the group id. -/
def createdListenPort (p : GroupCreatePayload) : Nat :=
  p.listen_port.getD 51820

/-! ### Newline-free field predicates (claim C2)

The stanza-counting property of the server config holds only when the
interpolated database fields contain no newline character (the HTTP layer
performs no such validation, which is what the C2 counterexample
exploits). -/

/-- A nullable column whose value, when present, contains no newline. -/
def NoNlOpt (o : Option String) : Prop :=
  ∀ v, o = some v → '\n' ∉ v.data

/-- The group columns interpolated into the server config contain no
newline. -/
def GroupNoNl (g : Group) : Prop :=
  '\n' ∉ g.server_private_key.data ∧ '\n' ∉ g.server_ip.data ∧
  '\n' ∉ g.ip_range.data ∧ NoNlOpt g.ip_range_v6 ∧ NoNlOpt g.server_ip_v6

/-- The client columns interpolated into the server config contain no
newline. -/
def ClientNoNl (c : Client) : Prop :=
  '\n' ∉ c.name.data ∧ '\n' ∉ c.public_key.data ∧
  '\n' ∉ c.assigned_ip.data ∧ NoNlOpt c.preshared_key ∧
  NoNlOpt c.assigned_ip_v6

/-! ### Concrete instances used by counterexamples and witnesses -/

/-- The group of the C2 scenarios. -/
def c2Group : Group :=
  { id := 2, name := "Office", server_private_key := "SPRIV",
    server_public_key := "SPUB", ip_range := "10.0.0.0/24",
    server_ip := "10.0.0.1", ip_range_v6 := none, server_ip_v6 := none,
    listen_port := 51820, dns := "1.1.1.1", endpoint := "",
    persistent_keepalive := 25, mtu := 1420, allow_client_to_client := true,
    is_running := false }

/-- An active client whose display name embeds a newline followed by a
`[Peer]` header — accepted unvalidated by the client-creation route. -/
def c2ClientInjected : Client :=
  { name := "x\n[Peer]", private_key := "IPRIV", public_key := "ipub",
    preshared_key := none, assigned_ip := "10.0.0.2", assigned_ip_v6 := none,
    allowed_ips := "0.0.0.0/0, ::/0", can_address_peers := true,
    dns_override := none, is_active := true, last_handshake := none,
    total_received := 0, total_sent := 0 }

/-- An active client with ordinary newline-free fields. -/
def c2ClientClean : Client :=
  { name := "alice", private_key := "APRIV", public_key := "apub",
    preshared_key := none, assigned_ip := "10.0.0.2", assigned_ip_v6 := none,
    allowed_ips := "0.0.0.0/0, ::/0", can_address_peers := true,
    dns_override := none, is_active := true, last_handshake := none,
    total_received := 0, total_sent := 0 }

/-- An inactive client rendered alongside the clean one in the C2
witness. -/
def c2ClientInactive : Client :=
  { name := "mallory", private_key := "MPRIV", public_key := "mpub",
    preshared_key := none, assigned_ip := "10.0.0.3", assigned_ip_v6 := none,
    allowed_ips := "0.0.0.0/0, ::/0", can_address_peers := true,
    dns_override := none, is_active := false, last_handshake := none,
    total_received := 0, total_sent := 0 }

/-- The inactive client of the C3 counterexample: its public key `pubkeyA`
does appear in the dump. -/
def c3ClientInactive : Client :=
  { name := "bob", private_key := "BPRIV", public_key := "pubkeyA",
    preshared_key := none, assigned_ip := "10.0.0.3", assigned_ip_v6 := none,
    allowed_ips := "0.0.0.0/0, ::/0", can_address_peers := true,
    dns_override := none, is_active := false, last_handshake := none,
    total_received := 0, total_sent := 0 }

/-- The mocked dump of the C3 scenario: peer `pubkeyA` with handshake
epoch 1700000000, 500 bytes received, 250 bytes sent. -/
def c3Dump : List (List Char × PeerStats) :=
  [("pubkeyA".data,
    { latest_handshake := 1700000000, received_bytes := 500, sent_bytes := 250 })]

/-- The active client of the C3 witness scenario. -/
def c3ClientActive : Client :=
  { name := "alice", private_key := "APRIV", public_key := "pubkeyA",
    preshared_key := none, assigned_ip := "10.0.0.2", assigned_ip_v6 := none,
    allowed_ips := "0.0.0.0/0, ::/0", can_address_peers := true,
    dns_override := none, is_active := true, last_handshake := none,
    total_received := 0, total_sent := 0 }

/-- The restricted client of the C6 witness scenario. -/
def c6ClientRestricted : Client :=
  { name := "carol", private_key := "CPRIV", public_key := "cpub",
    preshared_key := none, assigned_ip := "10.0.0.4", assigned_ip_v6 := none,
    allowed_ips := "10.0.0.0/24", can_address_peers := false,
    dns_override := none, is_active := true, last_handshake := none,
    total_received := 0, total_sent := 0 }

/-- The group of the C6 witness scenario. -/
def c6Group : Group :=
  { id := 1, name := "Office", server_private_key := "SPRIV",
    server_public_key := "SPUB", ip_range := "10.0.0.0/24",
    server_ip := "10.0.0.1", ip_range_v6 := none, server_ip_v6 := none,
    listen_port := 51820, dns := "1.1.1.1", endpoint := "",
    persistent_keepalive := 25, mtu := 1420, allow_client_to_client := true,
    is_running := false }

/-- The group of the C7 failing input: id 10, display name `Test Network`
(the repository's own test scenario in
src/backend/tests/test_groups.py:139-185). -/
def c7Group : Group :=
  { id := 10, name := "Test Network", server_private_key := "SPRIV",
    server_public_key := "SPUB", ip_range := "10.5.0.0/24",
    server_ip := "10.5.0.1", ip_range_v6 := none, server_ip_v6 := none,
    listen_port := 51820, dns := "1.1.1.1", endpoint := "",
    persistent_keepalive := 25, mtu := 1420, allow_client_to_client := true,
    is_running := false }

/-! ## Lemmas about the generic string helpers -/

theorem splitOnChar_of_not_mem {sep : Char} {l : List Char} (h : sep ∉ l) :
    splitOnChar sep l = [l] := by
  induction l with
  | nil => rfl
  | cons c cs ih =>
    simp only [List.mem_cons, not_or] at h
    simp only [splitOnChar]
    rw [if_neg (fun hc => h.1 hc.symm), ih h.2]

theorem splitOnChar_append_sep {sep : Char} {a : List Char} (h : sep ∉ a)
    (b : List Char) :
    splitOnChar sep (a ++ sep :: b) = a :: splitOnChar sep b := by
  induction a with
  | nil => simp [splitOnChar]
  | cons c cs ih =>
    simp only [List.mem_cons, not_or] at h
    simp only [List.cons_append, splitOnChar]
    rw [if_neg (fun hc => h.1 hc.symm),
      show cs.append (sep :: b) = cs ++ sep :: b from rfl, ih h.2]

theorem splitOnChar_joinSep {sep : Char} :
    ∀ (ls : List (List Char)), ls ≠ [] → (∀ l ∈ ls, sep ∉ l) →
      splitOnChar sep (joinSep [sep] ls) = ls
  | [], h, _ => absurd rfl h
  | [l], _, hm => by
    simp [joinSep, splitOnChar_of_not_mem (hm l (by simp))]
  | l :: m :: t, _, hm => by
    have hj : joinSep [sep] (l :: m :: t) = l ++ sep :: joinSep [sep] (m :: t) := by
      simp [joinSep]
    rw [hj, splitOnChar_append_sep (hm l (by simp)),
      splitOnChar_joinSep (m :: t) (by simp)
        (fun x hx => hm x (List.mem_cons_of_mem _ hx))]

theorem not_mem_joinSep {c : Char} {sep : List Char} (hc : c ∉ sep) :
    ∀ (ls : List (List Char)), (∀ l ∈ ls, c ∉ l) → c ∉ joinSep sep ls
  | [], _ => by simp [joinSep]
  | [l], hm => by simpa [joinSep] using hm l (by simp)
  | l :: m :: t, hm => by
    have hj : joinSep sep (l :: m :: t) = l ++ sep ++ joinSep sep (m :: t) := by
      simp [joinSep]
    rw [hj]
    simp only [List.mem_append, not_or]
    exact ⟨⟨hm l (by simp), hc⟩,
      not_mem_joinSep hc (m :: t) (fun x hx => hm x (List.mem_cons_of_mem _ hx))⟩

theorem mem_of_mem_dropWhile {p : Char → Bool} {l : List Char} {a : Char}
    (h : a ∈ l.dropWhile p) : a ∈ l :=
  ((List.dropWhile_sublist p : (l.dropWhile p).Sublist l)).mem h

theorem dropWhile_append_of_fix {p : Char → Bool} {l : List Char}
    (hl : l.dropWhile p = l) (hne : l ≠ []) (x : List Char) :
    (l ++ x).dropWhile p = l ++ x := by
  cases l with
  | nil => exact absurd rfl hne
  | cons c t =>
    have hpc : p c = false := by
      by_contra hpc
      rw [Bool.not_eq_false] at hpc
      rw [List.dropWhile_cons, if_pos hpc] at hl
      have := congrArg List.length hl
      have hle : (t.dropWhile p).length ≤ t.length :=
        (List.dropWhile_sublist p).length_le
      simp at this
      omega
    simp [List.dropWhile_cons, hpc]

/-! ## Lemmas about the interface-name sanitizer (claim C4/C8 support) -/

theorem subChar_alphabet (c : Char) : isLowerAlnumHyphen (subChar c) = true := by
  unfold subChar
  split
  · assumption
  · decide

theorem mem_collapseHyphens : ∀ {l : List Char} {a : Char},
    a ∈ collapseHyphens l → a ∈ l := by
  intro l
  induction l with
  | nil => simp [collapseHyphens]
  | cons x rest ih =>
    intro a ha
    cases rest with
    | nil => simpa [collapseHyphens] using ha
    | cons b t =>
      simp only [collapseHyphens] at ha
      split at ha
      · exact List.mem_cons_of_mem _ (ih ha)
      · rcases List.mem_cons.mp ha with h | h
        · exact h ▸ List.mem_cons_self _ _
        · exact List.mem_cons_of_mem _ (ih h)

theorem mem_stripHyphens {l : List Char} {a : Char} (h : a ∈ stripHyphens l) :
    a ∈ l := by
  unfold stripHyphens at h
  rw [List.mem_reverse] at h
  have h2 := mem_of_mem_dropWhile h
  rw [List.mem_reverse] at h2
  exact mem_of_mem_dropWhile h2

theorem mem_rstripHyphens {l : List Char} {a : Char} (h : a ∈ rstripHyphens l) :
    a ∈ l := by
  unfold rstripHyphens at h
  rw [List.mem_reverse] at h
  have h2 := mem_of_mem_dropWhile h
  rwa [List.mem_reverse] at h2

theorem mem_truncateStage {n : Nat} {l : List Char} {a : Char}
    (h : a ∈ truncateStage n l) : a ∈ l := by
  unfold truncateStage at h
  split at h
  · exact (List.take_sublist n l).mem (mem_rstripHyphens h)
  · exact h

theorem alphabet_sanitizeStem (s : List Char) :
    ∀ a ∈ sanitizeStem s, isLowerAlnumHyphen a = true := by
  intro a ha
  have h1 := mem_collapseHyphens (mem_stripHyphens ha)
  rcases List.mem_map.mp h1 with ⟨b, _, rfl⟩
  exact subChar_alphabet b

theorem alphabet_prefixIfBadStart {l : List Char}
    (h : ∀ a ∈ l, isLowerAlnumHyphen a = true) :
    ∀ a ∈ prefixIfBadStart l, isLowerAlnumHyphen a = true := by
  cases l with
  | nil => simp [prefixIfBadStart]
  | cons c cs =>
    simp only [prefixIfBadStart]
    split
    · exact h
    · intro a ha
      rcases List.mem_cons.mp ha with rfl | ha
      · decide
      rcases List.mem_cons.mp ha with rfl | ha
      · decide
      rcases List.mem_cons.mp ha with rfl | ha
      · decide
      · exact h a ha

theorem length_rstripHyphens_le (l : List Char) :
    (rstripHyphens l).length ≤ l.length := by
  unfold rstripHyphens
  have hle : (l.reverse.dropWhile (· = '-')).length ≤ l.reverse.length :=
    (List.dropWhile_sublist (· = '-')).length_le
  simpa using hle

theorem length_truncateStage_le (n : Nat) (l : List Char) :
    (truncateStage n l).length ≤ n := by
  unfold truncateStage
  split
  · calc (rstripHyphens (l.take n)).length
        ≤ (l.take n).length := length_rstripHyphens_le _
      _ ≤ n := by simp
  · omega

theorem lowerAlnum_of_alnum {c : Char} (h1 : isLowerAlnumHyphen c = true)
    (h2 : pyIsAlnum c = true) : isLowerAlnum c = true := by
  rcases Bool.or_eq_true_iff.mp ((by simpa [isLowerAlnumHyphen] using h1 :
      (isLowerAlnum c || (c = '-')) = true)) with h | h
  · exact h
  · rw [decide_eq_true_eq] at h
    subst h
    exact absurd h2 (by decide)

/-- C4: for every input string (including the empty string, an all-symbols
string, and a 200-character string), `sanitize_interface_name` returns a
non-empty string matching the pattern `^[a-z0-9][a-z0-9-]{0,14}$`. -/
theorem c4_sanitize_interface_name_total (name : String) :
    matchesInterfacePattern (sanitizeInterfaceName name 15).data = true := by
  have halpha : ∀ a ∈ truncateStage 15 (prefixIfBadStart (sanitizeStem name.data)),
      isLowerAlnumHyphen a = true :=
    fun a ha =>
      alphabet_prefixIfBadStart (alphabet_sanitizeStem name.data) a
        (mem_truncateStage ha)
  have hlen := length_truncateStage_le 15 (prefixIfBadStart (sanitizeStem name.data))
  have hshow : (sanitizeInterfaceName name 15).data
      = fallbackStage (truncateStage 15 (prefixIfBadStart (sanitizeStem name.data))) :=
    rfl
  rw [hshow]
  cases ht : truncateStage 15 (prefixIfBadStart (sanitizeStem name.data)) with
  | nil => decide
  | cons c cs =>
    rw [ht] at halpha hlen
    by_cases hc : pyIsAlnum c = true
    · have hcl := lowerAlnum_of_alnum (halpha c (List.mem_cons_self _ _)) hc
      simp only [fallbackStage, if_pos hc]
      simp only [matchesInterfacePattern, Bool.and_eq_true, decide_eq_true_eq]
      refine ⟨⟨hcl, ?_⟩, ?_⟩
      · rw [List.all_eq_true]
        exact fun a ha => halpha a (List.mem_cons_of_mem _ ha)
      · simpa using hlen
    · simp only [fallbackStage, if_neg hc]
      decide

/-- C8 counterexample: the sanitizer's fallback is the constant `wg0`, not
a name incorporating a group id — the function does not even receive an
id, two distinct display names collapse to the same output, and the
output does not mention `group`. -/
theorem c8_counterexample_constant_fallback :
    sanitizeInterfaceName "" 15 = "wg0" ∧
    sanitizeInterfaceName "!!!" 15 = "wg0" ∧
    ¬ (("" : String) = "!!!") ∧
    pyContains (sanitizeInterfaceName "" 15) "group" = false := by
  decide

/-- C8 (amended): whenever the lowercase/substitute/collapse/strip
pipeline yields an empty stem, `sanitize_interface_name` falls back to
the fixed name `wg0`; no group id is involved, so the output is not
traceable to a unique `(prefix, id)` pair. -/
theorem c8_amended_empty_stem_falls_back_to_wg0 (name : String)
    (h : sanitizeStem name.data = []) :
    sanitizeInterfaceName name 15 = "wg0" := by
  unfold sanitizeInterfaceName sanitizeCore
  rw [h]
  rfl

/-- Witness for the amended C8 theorem at the concrete name `!!!`. -/
theorem c8_amended_empty_stem_falls_back_to_wg0_witness :
    sanitizeStem "!!!".data = [] ∧ sanitizeInterfaceName "!!!" 15 = "wg0" :=
  ⟨by decide, c8_amended_empty_stem_falls_back_to_wg0 "!!!" (by decide)⟩

/-- C5: stopping an interface whose teardown command exits with a
non-zero status (already down) is reported as success, and
`Group.stop_wireguard` then persists `is_running = False`. -/
theorem c5_stop_already_down_is_success (rc : Int) (h : ¬ rc = 0) :
    stopWireguardInterface (ProcOutcome.completed rc) = true ∧
    ∀ wasRunning : Bool,
      stopWireguard wasRunning (ProcOutcome.completed rc) = (true, false) := by
  refine ⟨?_, fun wasRunning => ?_⟩
  · simp [stopWireguardInterface]
  · simp [stopWireguard, stopWireguardInterface]

/-- Witness for C5 at return code 1. -/
theorem c5_stop_already_down_is_success_witness :
    ¬ ((1 : Int) = 0) ∧
    (stopWireguardInterface (ProcOutcome.completed 1) = true ∧
     ∀ wasRunning : Bool,
       stopWireguard wasRunning (ProcOutcome.completed 1) = (true, false)) :=
  ⟨by decide, c5_stop_already_down_is_success 1 (by decide)⟩

/-- C9 counterexample: two groups created without an explicit
`listen_port` both receive the literal default 51820 — the derived port
does not depend on the group id, so it is not unique across groups. -/
theorem c9_counterexample_default_port_not_unique :
    createdListenPort { name := "Alpha", listen_port := none } = 51820 ∧
    createdListenPort { name := "Beta", listen_port := none } = 51820 ∧
    createdListenPort { name := "Alpha", listen_port := none } =
      createdListenPort { name := "Beta", listen_port := none } := by
  decide

/-- C9 (amended): every group created without an explicit `listen_port`
receives the constant default port 51820 (`data.get('listen_port', 51820)`);
no base-port-plus-group-id derivation exists. -/
theorem c9_amended_default_port_is_constant (p : GroupCreatePayload)
    (h : p.listen_port = none) : createdListenPort p = 51820 := by
  simp [createdListenPort, h]

/-- Witness for the amended C9 theorem. -/
theorem c9_amended_default_port_is_constant_witness :
    ({ name := "Alpha", listen_port := none } : GroupCreatePayload).listen_port
      = none ∧
    createdListenPort { name := "Alpha", listen_port := none } = 51820 :=
  ⟨rfl, c9_amended_default_port_is_constant _ rfl⟩

/-! ## The IPv4 allocator (claim C1) -/

theorem pairwise_lt_hostsList (addr plen : Nat) :
    (hostsList addr plen).Pairwise (· < ·) := by
  unfold hostsList
  exact List.Pairwise.map _ (fun a b h => by omega) (List.pairwise_lt_range _)

theorem find?_min_of_pairwise {p : Nat → Bool} :
    ∀ {l : List Nat} {a : Nat}, l.Pairwise (· < ·) → l.find? p = some a →
      ∀ x ∈ l, x < a → p x = false := by
  intro l
  induction l with
  | nil =>
    intro a _ h
    simp [List.find?] at h
  | cons b t ih =>
    intro a hp hf x hx hlt
    rw [List.pairwise_cons] at hp
    cases hpb : p b with
    | true =>
      rw [List.find?_cons_of_pos _ hpb] at hf
      have hba := Option.some.inj hf
      subst hba
      rcases List.mem_cons.mp hx with rfl | hx
      · omega
      · have := hp.1 x hx
        omega
    | false =>
      rw [List.find?_cons_of_neg _ (by simp [hpb])] at hf
      rcases List.mem_cons.mp hx with rfl | hx
      · exact hpb
      · exact ih hp.2 hf x hx hlt

theorem usedIps_contains_iff (serverIp : Nat) (clients : List AllocClient)
    (x : Nat) :
    (serverIp :: clients.filterMap (fun c => c.assigned_ip)).contains x = true ↔
      (x = serverIp ∨ ∃ c ∈ clients, c.assigned_ip = some x) := by
  rw [List.contains, List.elem_iff]
  simp [List.mem_filterMap]

/-- C1: on a valid IPv4 CIDR, `Group.get_next_available_ip` returns the
numerically smallest host address that is neither the server address nor
assigned to any client (active or inactive); when every host address is
taken it returns `None` (exhaustion) rather than a duplicate or an
out-of-range address. -/
theorem c1_next_available_ip_correct (addr plen serverIp : Nat)
    (clients : List AllocClient) (hvalid : plen ≤ 32 ∧ addr < 2 ^ 32) :
    (∀ ip, getNextAvailableIp addr plen serverIp clients = some ip →
        ip ∈ hostsList addr plen ∧
        ¬ ip = serverIp ∧
        (∀ c ∈ clients, ¬ c.assigned_ip = some ip) ∧
        (∀ x ∈ hostsList addr plen, x < ip →
           x = serverIp ∨ ∃ c ∈ clients, c.assigned_ip = some x)) ∧
    (getNextAvailableIp addr plen serverIp clients = none →
        ∀ x ∈ hostsList addr plen,
          x = serverIp ∨ ∃ c ∈ clients, c.assigned_ip = some x) := by
  clear hvalid
  constructor
  · intro ip hf
    rw [getNextAvailableIp] at hf
    have hmem := List.mem_of_find?_eq_some hf
    have hp := List.find?_some hf
    rw [Bool.not_eq_eq_eq_not, Bool.not_true, ← Bool.not_eq_true,
      usedIps_contains_iff] at hp
    push_neg at hp
    refine ⟨hmem, hp.1, ?_, ?_⟩
    · intro c hc hca
      exact (hp.2 c hc) hca
    · intro x hx hlt
      have := find?_min_of_pairwise (pairwise_lt_hostsList addr plen) hf x hx hlt
      rw [Bool.not_eq_false', usedIps_contains_iff] at this
      exact this
  · intro hf x hx
    rw [getNextAvailableIp, List.find?_eq_none] at hf
    have := hf x hx
    rw [Bool.not_eq_true, Bool.not_eq_false', usedIps_contains_iff] at this
    exact this

/-- Witness for C1 on the network `0.0.0.0/30` with server address 1 and
no clients: the allocator hands out address 2, the smallest free host. -/
theorem c1_next_available_ip_correct_witness :
    (30 ≤ 32 ∧ 0 < 2 ^ 32) ∧
    (2 ∈ hostsList 0 30 ∧ ¬ (2 = 1) ∧
     (∀ c ∈ ([] : List AllocClient), ¬ c.assigned_ip = some 2) ∧
     (∀ x ∈ hostsList 0 30, x < 2 →
        x = 1 ∨ ∃ c ∈ ([] : List AllocClient), c.assigned_ip = some x)) :=
  ⟨⟨by norm_num, by norm_num⟩,
    (c1_next_available_ip_correct 0 30 1 [] ⟨by norm_num, by norm_num⟩).1 2
      (by decide)⟩

/-! ## Statistics merge (claim C3) -/

theorem mem_zip_map {α β : Type} (f : α → β) :
    ∀ (l : List α) (q : α × β), q ∈ l.zip (l.map f) → q.2 = f q.1 := by
  intro l
  induction l with
  | nil => simp
  | cons x t ih =>
    intro q hq
    rcases List.mem_cons.mp (by simpa using hq) with rfl | hq
    · rfl
    · exact ih q hq

/-- C3 (amended): a collection that yields an *empty* dump dict is
reported as failure and leaves every row unchanged (`if not stats`); after
a successful collection on a running group with a non-empty dump, every
*active* client whose public key appears in the dump has its byte counters
replaced wholesale by the dump's absolute values and, for a positive
handshake epoch, its handshake timestamp updated; inactive clients and
clients absent from the dump keep all fields unchanged. -/
theorem c3_amended_stats_merge_updates_active_clients (clients : List Client)
    (stats : List (List Char × PeerStats)) (hne : ¬ stats = []) :
    updateClientStats true clients (some []) = (false, clients) ∧
    (updateClientStats true clients (some stats)).1 = true ∧
    ∀ q ∈ clients.zip (updateClientStats true clients (some stats)).2,
      ((q.1.is_active = true →
          ∀ ps, stats.lookup q.1.public_key.data = some ps →
            q.2.total_received = ps.received_bytes ∧
            q.2.total_sent = ps.sent_bytes ∧
            q.2.last_handshake =
              (if 0 < ps.latest_handshake then
                 some (utcOfEpoch ps.latest_handshake)
               else q.1.last_handshake) ∧
            q.2.name = q.1.name ∧
            q.2.public_key = q.1.public_key ∧
            q.2.is_active = q.1.is_active)
       ∧ (q.1.is_active = false → q.2 = q.1)
       ∧ (stats.lookup q.1.public_key.data = none → q.2 = q.1)) := by
  cases stats with
  | nil => exact absurd rfl hne
  | cons s t =>
    refine ⟨rfl, rfl, ?_⟩
    intro q hq
    have hq2 : q.2 = updateOneClient (s :: t) q.1 :=
      mem_zip_map _ clients q (by simpa [updateClientStats] using hq)
    refine ⟨?_, ?_, ?_⟩
    · intro hact ps hps
      rw [hq2]
      simp [updateOneClient, hact, hps]
    · intro hact
      rw [hq2]
      simp [updateOneClient, hact]
    · intro hnone
      rw [hq2]
      simp [updateOneClient, hnone]

/-- C3 counterexample: an *inactive* client whose public key appears in
the dump keeps `total_received = 0` instead of receiving the dump's 500 —
the code only updates clients with `is_active=True`, so the claim's
"every client whose public key appears in the dump" fails. -/
theorem c3_counterexample_inactive_client_not_updated :
    (updateClientStats true [c3ClientInactive] (some c3Dump)).1 = true ∧
    (updateClientStats true [c3ClientInactive] (some c3Dump)).2.map
        (fun c => c.total_received) = [0] ∧
    ¬ ((0 : Int) = 500) ∧
    c3Dump.lookup c3ClientInactive.public_key.data =
      some { latest_handshake := 1700000000, received_bytes := 500,
             sent_bytes := 250 } := by
  decide

/-- Witness for the amended C3 theorem: an empty dump fails, and with the
real dump the active client owning `pubkeyA` ends up with the dump's
absolute counters and handshake timestamp. -/
theorem c3_amended_stats_merge_updates_active_clients_witness :
    ¬ (c3Dump = []) ∧
    updateClientStats true [c3ClientActive] (some []) =
      (false, [c3ClientActive]) ∧
    ((c3ClientActive, updateOneClient c3Dump c3ClientActive) ∈
       [c3ClientActive].zip
         (updateClientStats true [c3ClientActive] (some c3Dump)).2) ∧
    (updateOneClient c3Dump c3ClientActive).total_received = 500 ∧
    (updateOneClient c3Dump c3ClientActive).total_sent = 250 ∧
    (updateOneClient c3Dump c3ClientActive).last_handshake =
      some 1700000000 := by
  have hthm := c3_amended_stats_merge_updates_active_clients [c3ClientActive]
    c3Dump (by decide)
  have h := (hthm.2.2
      (c3ClientActive, updateOneClient c3Dump c3ClientActive) (by decide)).1 rfl
    ⟨1700000000, 500, 250⟩ (by decide)
  exact ⟨by decide, hthm.1, by decide, h.1, h.2.1, by simpa using h.2.2.1⟩

/-! ## Client config rendering (claim C6) -/

theorem clientConfig_decomp (c : Client) (g : Group) :
    ∃ pre post : List Char,
      (generateClientConfig c g).data =
        pre ++ "\nAllowedIPs = ".data ++ (computeAllowedIps c g).data
          ++ "\n".data ++ post := by
  refine ⟨("[Interface]\nPrivateKey = " ++ c.private_key ++ "\nAddress = "
      ++ (c.assigned_ip ++ "/" ++ subnetMask g.ip_range
          ++ (match c.assigned_ip_v6, g.ip_range_v6 with
              | some a6, some r6 => ", " ++ a6 ++ "/" ++ subnetMask r6
              | _, _ => "")) ++ "\n"
      ++ (if ¬ effectiveDns c g = "" then "DNS = " ++ effectiveDns c g ++ "\n"
          else "")
      ++ (if ¬ g.mtu = 0 then "MTU = " ++ natStr g.mtu ++ "\n" else "")
      ++ "\n[Peer]\nPublicKey = " ++ g.server_public_key).data,
    ((match c.preshared_key with
      | some k => "PresharedKey = " ++ k ++ "\n"
      | none => "")
     ++ (if ¬ g.endpoint = "" then
           "Endpoint = " ++ g.endpoint ++ ":" ++ natStr g.listen_port ++ "\n"
         else "")
     ++ (if ¬ g.persistent_keepalive = 0 then
           "PersistentKeepalive = " ++ natStr g.persistent_keepalive ++ "\n"
         else "")).data, ?_⟩
  simp [generateClientConfig, String.data_append, List.append_assoc]

/-- C6: for a client with `can_address_peers = false`, the client config's
`AllowedIPs` value is exactly the group's subnet route(s) when the
client's own `allowed_ips` does not contain `0.0.0.0/0`, and the
full-tunnel value `0.0.0.0/0, ::/0` when it does. -/
theorem c6_restricted_client_allowed_ips (c : Client) (g : Group)
    (h : c.can_address_peers = false) :
    (pyContains c.allowed_ips "0.0.0.0/0" = false →
       computeAllowedIps c g = subnetRoutes g ∧
       ∃ pre post : List Char,
         (generateClientConfig c g).data =
           pre ++ "\nAllowedIPs = ".data ++ (subnetRoutes g).data
             ++ "\n".data ++ post) ∧
    (pyContains c.allowed_ips "0.0.0.0/0" = true →
       computeAllowedIps c g = "0.0.0.0/0, ::/0" ∧
       ∃ pre post : List Char,
         (generateClientConfig c g).data =
           pre ++ "\nAllowedIPs = ".data ++ ("0.0.0.0/0, ::/0" : String).data
             ++ "\n".data ++ post) := by
  constructor
  · intro hcont
    have hval : computeAllowedIps c g = subnetRoutes g := by
      simp [computeAllowedIps, h, hcont]
    exact ⟨hval, hval ▸ clientConfig_decomp c g⟩
  · intro hcont
    have hne : ¬ c.allowed_ips = "" := by
      intro he
      rw [he] at hcont
      exact absurd hcont (by decide)
    have hval : computeAllowedIps c g = "0.0.0.0/0, ::/0" := by
      simp [computeAllowedIps, h, hne, hcont]
    exact ⟨hval, hval ▸ clientConfig_decomp c g⟩

/-- Witness for C6: the restricted client without full-tunnel request gets
exactly the group's IPv4 subnet route. -/
theorem c6_restricted_client_allowed_ips_witness :
    c6ClientRestricted.can_address_peers = false ∧
    pyContains c6ClientRestricted.allowed_ips "0.0.0.0/0" = false ∧
    (computeAllowedIps c6ClientRestricted c6Group = subnetRoutes c6Group ∧
     ∃ pre post : List Char,
       (generateClientConfig c6ClientRestricted c6Group).data =
         pre ++ "\nAllowedIPs = ".data ++ (subnetRoutes c6Group).data
           ++ "\n".data ++ post) :=
  ⟨rfl, by decide,
    (c6_restricted_client_allowed_ips c6ClientRestricted c6Group rfl).1
      (by decide)⟩

/-! ## Server config file path (claim C7) -/

/-- C7: at the failing input (config root `/etc/wireguard`, group 10 named
`Test Network`), `save_server_config` writes the rendered config to
`/etc/wireguard/test-network/server.conf` — a path derived from the
display name, not the per-interface path
`<config_root>/<interface-name>.conf` that the claim (and the
repository's own test suite) requires; the OS interface name is `wg10`. -/
theorem c7_server_config_written_to_group_dir :
    saveServerConfigWrite "/etc/wireguard" c7Group [] =
      some ("/etc/wireguard/test-network/server.conf",
            generateServerConfig c7Group []) ∧
    interfaceName c7Group = "wg10" ∧
    ¬ ("/etc/wireguard/test-network/server.conf" =
        pyPathJoin "/etc/wireguard" (interfaceName c7Group ++ ".conf")) := by
  refine ⟨rfl, rfl, by decide⟩

/-! ## Statistics dump parser (claim C10) -/

theorem parseDumpLine_short {line : List Char}
    (h : (splitTab line).length < 6) : parseDumpLine line = some none := by
  by_cases hline : line = []
  · simp [parseDumpLine, hline]
  · simp only [parseDumpLine, if_neg hline]
    rw [if_neg (by omega)]

theorem processDumpLines_skip (line : List Char)
    (h : (splitTab line).length < 6) :
    ∀ (pre post : List (List Char)) (acc : List (List Char × PeerStats)),
      processDumpLines (pre ++ line :: post) acc =
        processDumpLines (pre ++ post) acc := by
  intro pre
  induction pre with
  | nil =>
    intro post acc
    simp only [List.nil_append, processDumpLines, parseDumpLine_short h]
  | cons l t ih =>
    intro post acc
    cases hpl : parseDumpLine l with
    | none => simp [processDumpLines, hpl]
    | some o =>
      cases o with
      | none =>
        simp only [List.cons_append, processDumpLines, hpl]
        exact ih post acc
      | some kv =>
        obtain ⟨k, v⟩ := kv
        simp only [List.cons_append, processDumpLines, hpl]
        exact ih post _

theorem splitTab_joinTab (fields : List (List Char)) (hne : fields ≠ [])
    (hf : ∀ f ∈ fields, '\t' ∉ f) : splitTab (joinTab fields) = fields :=
  splitOnChar_joinSep fields hne hf

theorem processDumpLines_entry (k f1 f2 f3 fh fr : List Char)
    (rest : List (List Char))
    (hk : '\t' ∉ k) (h1 : '\t' ∉ f1) (h2 : '\t' ∉ f2) (h3 : '\t' ∉ f3)
    (hh : '\t' ∉ fh) (hr : '\t' ∉ fr) (hrest : ∀ f ∈ rest, '\t' ∉ f)
    (hs rc st : Int) (hfh : fieldInt fh = some hs) (hfr : fieldInt fr = some rc)
    (hfs : sentFieldValue rest = some st)
    (ls : List (List Char)) (acc : List (List Char × PeerStats)) :
    processDumpLines (joinTab (k :: f1 :: f2 :: f3 :: fh :: fr :: rest) :: ls) acc
      = processDumpLines ls (dictInsert k ⟨hs, rc, st⟩ acc) := by
  have hmem : ∀ f ∈ (k :: f1 :: f2 :: f3 :: fh :: fr :: rest), '\t' ∉ f := by
    intro f hmf
    rcases List.mem_cons.mp hmf with rfl | hmf
    · exact hk
    rcases List.mem_cons.mp hmf with rfl | hmf
    · exact h1
    rcases List.mem_cons.mp hmf with rfl | hmf
    · exact h2
    rcases List.mem_cons.mp hmf with rfl | hmf
    · exact h3
    rcases List.mem_cons.mp hmf with rfl | hmf
    · exact hh
    rcases List.mem_cons.mp hmf with rfl | hmf
    · exact hr
    exact hrest f hmf
  have hsplit := splitTab_joinTab (k :: f1 :: f2 :: f3 :: fh :: fr :: rest)
    (by simp) hmem
  have hne : joinTab (k :: f1 :: f2 :: f3 :: fh :: fr :: rest) ≠ [] := by
    intro he
    rw [he] at hsplit
    have hlen := congrArg List.length hsplit
    simp [splitTab, splitOnChar] at hlen
  have hp : parseDumpLine (joinTab (k :: f1 :: f2 :: f3 :: fh :: fr :: rest)) =
      some (some (k, ⟨hs, rc, st⟩)) := by
    cases rest with
    | nil =>
      have hst : (0 : Int) = st := Option.some.inj hfs
      subst hst
      simp [parseDumpLine, hne, hsplit, hfh, hfr]
    | cons s rs =>
      have hfs2 : fieldInt s = some st := hfs
      have h6le : 6 ≤ (k :: f1 :: f2 :: f3 :: fh :: fr :: s :: rs).length := by
        simp only [List.length_cons]
        omega
      have h6lt : 6 < (k :: f1 :: f2 :: f3 :: fh :: fr :: s :: rs).length := by
        simp only [List.length_cons]
        omega
      simp [parseDumpLine, hne, hsplit, hfh, hfr, hfs2, h6le, h6lt]
  simp only [processDumpLines, hp]

theorem rstrip_append_of_fix {r : List Char} (hfix : rstripSpaces r = r)
    (hne : r ≠ []) (x : List Char) : rstripSpaces (x ++ r) = x ++ r := by
  have hrev : r.reverse.dropWhile isPySpace = r.reverse := by
    have h2 := congrArg List.reverse hfix
    simpa [rstripSpaces] using h2
  have hrne : r.reverse ≠ [] := by simpa using hne
  unfold rstripSpaces
  rw [List.reverse_append, dropWhile_append_of_fix hrev hrne,
    List.reverse_append, List.reverse_reverse, List.reverse_reverse]

theorem pyStrip_header_body (hdr r : List Char) (hl : lstripSpaces hdr = hdr)
    (hhne : hdr ≠ []) (hr : rstripSpaces r = r) (hrne : r ≠ []) :
    pyStrip (hdr ++ '\n' :: r) = hdr ++ '\n' :: r := by
  unfold pyStrip
  have hls : lstripSpaces (hdr ++ '\n' :: r) = hdr ++ '\n' :: r :=
    dropWhile_append_of_fix hl hhne _
  rw [hls, show hdr ++ '\n' :: r = (hdr ++ ['\n']) ++ r by simp,
    rstrip_append_of_fix hr hrne]

/-- C10: the dump parser ignores the interface-header line (the result is
a function of the body only); skips every line with fewer than 6
tab-separated fields; and maps the first field of *every* line it does
parse (any 6-or-more-field line, including the 8-field lines of a real
dump) to counters built field-wise from positions 5, 6 and — when a
seventh field exists — 7, where an empty field parses as 0 and a missing
sent-bytes field is 0. -/
theorem c10_dump_parser_fields :
    (∀ hdr rest : List Char, '\n' ∉ hdr → lstripSpaces hdr = hdr →
       hdr ≠ [] → rstripSpaces rest = rest → rest ≠ [] →
       getWireguardStats (hdr ++ '\n' :: rest) =
         processDumpLines (splitNl rest) []) ∧
    (∀ (line : List Char) (pre post : List (List Char))
       (acc : List (List Char × PeerStats)),
       (splitTab line).length < 6 →
       processDumpLines (pre ++ line :: post) acc =
         processDumpLines (pre ++ post) acc) ∧
    (∀ (k f1 f2 f3 fh fr : List Char) (rest : List (List Char)),
       '\t' ∉ k → '\t' ∉ f1 → '\t' ∉ f2 → '\t' ∉ f3 → '\t' ∉ fh →
       '\t' ∉ fr → (∀ f ∈ rest, '\t' ∉ f) →
       ∀ hs rc st : Int,
         fieldInt fh = some hs → fieldInt fr = some rc →
         sentFieldValue rest = some st →
         ∀ (ls : List (List Char)) (acc : List (List Char × PeerStats)),
           processDumpLines
               (joinTab (k :: f1 :: f2 :: f3 :: fh :: fr :: rest) :: ls) acc
             = processDumpLines ls (dictInsert k ⟨hs, rc, st⟩ acc)) ∧
    fieldInt [] = some 0 := by
  refine ⟨?_, ?_, ?_, rfl⟩
  · intro hdr rest hnl hl hhne hr hrne
    unfold getWireguardStats
    rw [pyStrip_header_body hdr rest hl hhne hr hrne]
    rw [show splitNl (hdr ++ '\n' :: rest) = hdr :: splitNl rest from
      splitOnChar_append_sep hnl rest]
    rfl
  · intro line pre post acc h
    exact processDumpLines_skip line h pre post acc
  · intro k f1 f2 f3 fh fr rest hk h1 h2 h3 hh hr hrest hs rc st hfh hfr hfs
      ls acc
    exact processDumpLines_entry k f1 f2 f3 fh fr rest hk h1 h2 h3 hh hr hrest
      hs rc st hfh hfr hfs ls acc

/-- Witness for C10 on concrete inputs: a header line that is dropped, a
short line that is skipped, an 8-field peer line whose empty handshake
field parses as 0 while the non-empty byte counters keep their values,
and the empty-field-is-zero fact itself. -/
theorem c10_dump_parser_fields_witness :
    getWireguardStats ("wg0 54321".data ++ '\n' :: "pk\ta\tb\tc\t1\t2".data) =
      processDumpLines (splitNl "pk\ta\tb\tc\t1\t2".data) [] ∧
    processDumpLines ([] ++ "short line".data :: []) [] =
      processDumpLines ([] ++ []) [] ∧
    processDumpLines
        (joinTab ("pk".data :: "a".data :: "b".data :: "c".data :: []
          :: "500".data :: ["250".data, "10".data]) :: []) [] =
      processDumpLines [] (dictInsert "pk".data ⟨0, 500, 250⟩ []) ∧
    fieldInt [] = some 0 :=
  ⟨c10_dump_parser_fields.1 "wg0 54321".data "pk\ta\tb\tc\t1\t2".data
      (by decide) (by decide) (by decide) (by decide) (by decide),
   c10_dump_parser_fields.2.1 "short line".data [] [] [] (by decide),
   c10_dump_parser_fields.2.2.1 "pk".data "a".data "b".data "c".data []
      "500".data ["250".data, "10".data] (by decide) (by decide) (by decide)
      (by decide) (by decide) (by decide) (by decide) 0 500 250 (by decide)
      (by decide) (by decide) [] [],
   c10_dump_parser_fields.2.2.2⟩


/-! ## Server config rendering (claim C2) -/

theorem ne_of_head?_ne {c d : Char} {l m : List Char}
    (hl : l.head? = some c) (hm : m.head? = some d) (h : ¬ c = d) :
    ¬ l = m := by
  intro e
  rw [e, hm] at hl
  exact h (Option.some.inj hl).symm

theorem beq_line_false {c d : Char} {l m : List Char}
    (hl : l.head? = some c) (hm : m.head? = some d) (h : ¬ c = d) :
    (l == m) = false :=
  beq_eq_false_iff_ne.mpr (ne_of_head?_ne hl hm h)

theorem digitChar_lt_ten_isDigit {d : Nat} (h : d < 10) :
    (digitChar d).isDigit = true := by
  interval_cases d <;> decide

theorem nl_not_mem_natDigitsCore : ∀ (fuel n : Nat), '\n' ∉ natDigitsCore fuel n := by
  intro fuel
  induction fuel with
  | zero =>
    intro n
    simp [natDigitsCore]
  | succ f ih =>
    intro n
    simp only [natDigitsCore]
    by_cases hlt : n < 10
    · rw [if_pos hlt]
      intro hm
      rw [List.mem_singleton] at hm
      have hd := digitChar_lt_ten_isDigit hlt
      rw [← hm] at hd
      exact absurd hd (by decide)
    · rw [if_neg hlt]
      intro hm
      rcases List.mem_append.mp hm with h | h
      · exact ih (n / 10) h
      · rw [List.mem_singleton] at h
        have hd := digitChar_lt_ten_isDigit (Nat.mod_lt n (by omega))
        rw [← h] at hd
        exact absurd hd (by decide)

theorem nl_not_mem_natDigits (n : Nat) : '\n' ∉ natDigits n :=
  nl_not_mem_natDigitsCore (n + 1) n

theorem mem_subnetMask {r : String} {a : Char} (h : a ∈ (subnetMask r).data) :
    a ∈ r.data :=
  ((List.drop_sublist 1 _).trans
    (List.dropWhile_sublist (fun c => ¬ c = '/'))).mem h

theorem nl_not_mem_optStr {o : Option String} (h : NoNlOpt o) :
    '\n' ∉ (optStr o).data := by
  cases o with
  | none => decide
  | some v => exact h v rfl

theorem nl_not_mem_seven (w a x b y c z : String)
    (hw : '\n' ∉ w.data) (ha : '\n' ∉ a.data) (hx : '\n' ∉ x.data)
    (hb : '\n' ∉ b.data) (hy : '\n' ∉ y.data) (hc : '\n' ∉ c.data)
    (hz : '\n' ∉ z.data) :
    '\n' ∉ (w ++ a ++ x ++ b ++ y ++ c ++ z).data := by
  simp only [String.data_append, List.mem_append, not_or]
  exact ⟨⟨⟨⟨⟨⟨hw, ha⟩, hx⟩, hb⟩, hy⟩, hc⟩, hz⟩

theorem nl_not_mem_dropRuleV4 (g : Group) (c : Client) (hg : GroupNoNl g)
    (hip : '\n' ∉ c.assigned_ip.data) : '\n' ∉ (dropRuleV4 g c).data :=
  nl_not_mem_seven _ _ _ _ _ _ _ (by decide) hip (by decide) hg.2.2.1
    (by decide) hg.2.1 (by decide)

theorem nl_not_mem_dropRuleDelV4 (g : Group) (c : Client) (hg : GroupNoNl g)
    (hip : '\n' ∉ c.assigned_ip.data) : '\n' ∉ (dropRuleDelV4 g c).data :=
  nl_not_mem_seven _ _ _ _ _ _ _ (by decide) hip (by decide) hg.2.2.1
    (by decide) hg.2.1 (by decide)

theorem nl_not_mem_dropRuleV6 (g : Group) (c : Client) (hg : GroupNoNl g)
    (hip : NoNlOpt c.assigned_ip_v6) : '\n' ∉ (dropRuleV6 g c).data :=
  nl_not_mem_seven _ _ _ _ _ _ _ (by decide) (nl_not_mem_optStr hip)
    (by decide) (nl_not_mem_optStr hg.2.2.2.1) (by decide)
    (nl_not_mem_optStr hg.2.2.2.2) (by decide)

theorem nl_not_mem_dropRuleDelV6 (g : Group) (c : Client) (hg : GroupNoNl g)
    (hip : NoNlOpt c.assigned_ip_v6) : '\n' ∉ (dropRuleDelV6 g c).data :=
  nl_not_mem_seven _ _ _ _ _ _ _ (by decide) (nl_not_mem_optStr hip)
    (by decide) (nl_not_mem_optStr hg.2.2.2.1) (by decide)
    (nl_not_mem_optStr hg.2.2.2.2) (by decide)

theorem mem_restrictedClients {g : Group} {active : List Client} {c : Client}
    (h : c ∈ restrictedClients g active) : c ∈ active := by
  unfold restrictedClients at h
  split at h
  · exact List.mem_of_mem_filter h
  · exact h

theorem nl_not_mem_postUpRules (g : Group) (active : List Client)
    (hg : GroupNoNl g) (hc : ∀ c ∈ active, ClientNoNl c) :
    ∀ s ∈ postUpRules g active, '\n' ∉ s.data := by
  intro s hs
  unfold postUpRules at hs
  cases hv : g.ip_range_v6 with
  | none =>
    rw [hv] at hs
    rcases List.mem_append.mp hs with h | h
    · simp only [List.mem_cons, List.not_mem_nil, or_false] at h
      rcases h with rfl | rfl | rfl <;> decide
    · rcases List.mem_map.mp h with ⟨c, hcm, rfl⟩
      exact nl_not_mem_dropRuleV4 g c hg
        (hc c (mem_restrictedClients hcm)).2.2.1
  | some r6 =>
    rw [hv] at hs
    rcases List.mem_append.mp hs with h | h
    · rcases List.mem_append.mp h with h2 | h2
      · rcases List.mem_append.mp h2 with h3 | h3
        · simp only [List.mem_cons, List.not_mem_nil, or_false] at h3
          rcases h3 with rfl | rfl | rfl <;> decide
        · rcases List.mem_map.mp h3 with ⟨c, hcm, rfl⟩
          exact nl_not_mem_dropRuleV4 g c hg
            (hc c (mem_restrictedClients hcm)).2.2.1
      · simp only [List.mem_cons, List.not_mem_nil, or_false] at h2
        rcases h2 with rfl | rfl | rfl <;> decide
    · rcases List.mem_map.mp h with ⟨c, hcm, rfl⟩
      exact nl_not_mem_dropRuleV6 g c hg
        (hc c (mem_restrictedClients (List.mem_of_mem_filter hcm))).2.2.2.2

theorem nl_not_mem_postDownRules (g : Group) (active : List Client)
    (hg : GroupNoNl g) (hc : ∀ c ∈ active, ClientNoNl c) :
    ∀ s ∈ postDownRules g active, '\n' ∉ s.data := by
  intro s hs
  unfold postDownRules at hs
  cases hv : g.ip_range_v6 with
  | none =>
    rw [hv] at hs
    rcases List.mem_append.mp hs with h | h
    · rcases List.mem_map.mp (List.mem_reverse.mp h) with ⟨c, hcm, rfl⟩
      exact nl_not_mem_dropRuleDelV4 g c hg
        (hc c (mem_restrictedClients hcm)).2.2.1
    · simp only [List.mem_cons, List.not_mem_nil, or_false] at h
      rcases h with rfl | rfl | rfl <;> decide
  | some r6 =>
    rw [hv] at hs
    rcases List.mem_append.mp hs with h | h
    · rcases List.mem_append.mp h with h2 | h2
      · rcases List.mem_map.mp (List.mem_reverse.mp h2) with ⟨c, hcm, rfl⟩
        exact nl_not_mem_dropRuleDelV6 g c hg
          (hc c (mem_restrictedClients (List.mem_of_mem_filter hcm))).2.2.2.2
      · rcases List.mem_append.mp h2 with h3 | h3
        · rcases List.mem_map.mp (List.mem_reverse.mp h3) with ⟨c, hcm, rfl⟩
          exact nl_not_mem_dropRuleDelV4 g c hg
            (hc c (mem_restrictedClients hcm)).2.2.1
        · simp only [List.mem_cons, List.not_mem_nil, or_false] at h3
          rcases h3 with rfl | rfl | rfl <;> decide
    · simp only [List.mem_cons, List.not_mem_nil, or_false] at h
      rcases h with rfl | rfl | rfl <;> decide

theorem nl_not_mem_serverAddressValue (g : Group) (hg : GroupNoNl g) :
    '\n' ∉ serverAddressValue g := by
  unfold serverAddressValue
  intro hm
  rcases List.mem_append.mp hm with h | h
  · rcases List.mem_append.mp h with h2 | h2
    · exact hg.2.1 h2
    · rcases List.mem_cons.mp h2 with h3 | h3
      · exact absurd h3 (by decide)
      · exact hg.2.2.1 (mem_subnetMask h3)
  · cases hv6 : g.server_ip_v6 with
    | none => rw [hv6] at h; simp at h
    | some s6 =>
      cases hr6 : g.ip_range_v6 with
      | none => rw [hv6, hr6] at h; simp at h
      | some r6 =>
        rw [hv6, hr6] at h
        rcases List.mem_append.mp h with h2 | h2
        · rcases List.mem_append.mp h2 with h3 | h3
          · exact absurd h3 (by decide)
          · exact hg.2.2.2.2 s6 hv6 h3
        · rcases List.mem_cons.mp h2 with h3 | h3
          · exact absurd h3 (by decide)
          · exact hg.2.2.2.1 r6 hr6 (mem_subnetMask h3)

theorem nl_not_mem_peerBlockLines (c : Client) (h : ClientNoNl c) :
    ∀ l ∈ peerBlockLines c, '\n' ∉ l := by
  intro l hl
  unfold peerBlockLines at hl
  rcases List.mem_append.mp hl with h5 | hpsk
  · simp only [List.mem_cons, List.not_mem_nil, or_false] at h5
    rcases h5 with rfl | rfl | rfl | rfl | rfl
    · simp
    · decide
    · intro hm
      rcases List.mem_append.mp hm with hh | hh
      · exact absurd hh (by decide)
      · exact h.1 hh
    · intro hm
      rcases List.mem_append.mp hm with hh | hh
      · exact absurd hh (by decide)
      · exact h.2.1 hh
    · intro hm
      rcases List.mem_append.mp hm with hh | hh
      · rcases List.mem_append.mp hh with h3 | h3
        · rcases List.mem_append.mp h3 with h4 | h4
          · exact absurd h4 (by decide)
          · exact h.2.2.1 h4
        · exact absurd h3 (by decide)
      · cases hv6 : c.assigned_ip_v6 with
        | none => rw [hv6] at hh; simp at hh
        | some v6 =>
          rw [hv6] at hh
          rcases List.mem_append.mp hh with h3 | h3
          · rcases List.mem_append.mp h3 with h4 | h4
            · exact absurd h4 (by decide)
            · exact h.2.2.2.2 v6 hv6 h4
          · exact absurd h3 (by decide)
  · cases hk : c.preshared_key with
    | none => rw [hk] at hpsk; simp at hpsk
    | some k =>
      rw [hk] at hpsk
      rw [List.mem_singleton] at hpsk
      subst hpsk
      intro hm
      rcases List.mem_append.mp hm with hh | hh
      · exact absurd hh (by decide)
      · exact h.2.2.2.1 k hk hh

theorem nl_not_mem_serverConfigLines (g : Group) (clients : List Client)
    (hg : GroupNoNl g) (hc : ∀ c ∈ clients, c.is_active = true → ClientNoNl c) :
    ∀ l ∈ serverConfigLines g clients, '\n' ∉ l := by
  have hact : ∀ c ∈ clients.filter (fun c => c.is_active), ClientNoNl c :=
    fun c h => hc c (List.mem_of_mem_filter h) (List.of_mem_filter h)
  intro l hl
  unfold serverConfigLines at hl
  rcases List.mem_append.mp hl with h | h
  · rcases List.mem_append.mp h with h2 | h2
    · simp only [List.mem_cons, List.not_mem_nil, or_false] at h2
      rcases h2 with rfl | rfl | rfl | rfl | rfl | rfl
      · decide
      · intro hm
        rcases List.mem_append.mp hm with hh | hh
        · exact absurd hh (by decide)
        · exact hg.1 hh
      · intro hm
        rcases List.mem_append.mp hm with hh | hh
        · exact absurd hh (by decide)
        · exact nl_not_mem_serverAddressValue g hg hh
      · intro hm
        rcases List.mem_append.mp hm with hh | hh
        · exact absurd hh (by decide)
        · exact nl_not_mem_natDigits g.listen_port hh
      · intro hm
        rcases List.mem_append.mp hm with hh | hh
        · exact absurd hh (by decide)
        · refine not_mem_joinSep (by decide) _ ?_ hh
          intro x hx
          rcases List.mem_map.mp hx with ⟨r, hr, rfl⟩
          exact nl_not_mem_postUpRules g _ hg hact r hr
      · intro hm
        rcases List.mem_append.mp hm with hh | hh
        · exact absurd hh (by decide)
        · refine not_mem_joinSep (by decide) _ ?_ hh
          intro x hx
          rcases List.mem_map.mp hx with ⟨r, hr, rfl⟩
          exact nl_not_mem_postDownRules g _ hg hact r hr
    · rcases List.mem_flatMap.mp h2 with ⟨c, hcm, hlm⟩
      exact nl_not_mem_peerBlockLines c (hact c hcm) l hlm
  · rw [List.mem_singleton] at h
    subst h
    simp

theorem splitNl_generateServerConfig (g : Group) (clients : List Client)
    (hg : GroupNoNl g) (hc : ∀ c ∈ clients, c.is_active = true → ClientNoNl c) :
    splitNl (generateServerConfig g clients).data = serverConfigLines g clients := by
  have hne : serverConfigLines g clients ≠ [] := by
    simp [serverConfigLines]
  exact splitOnChar_joinSep _ hne (nl_not_mem_serverConfigLines g clients hg hc)

theorem count_flatMap {α : Type} (a : List Char) (f : α → List (List Char)) :
    ∀ l : List α, ((l.flatMap f).count a) = (l.map (fun x => (f x).count a)).sum := by
  intro l
  induction l with
  | nil => simp
  | cons x t ih => simp [List.flatMap_cons, List.count_append, ih]

theorem sum_map_ones {α : Type} (l : List α) :
    (l.map (fun _ => (1 : Nat))).sum = l.length := by
  induction l with
  | nil => rfl
  | cons x t ih =>
    simp only [List.map_cons, List.sum_cons, ih, List.length_cons]
    omega

theorem count_peer_peerBlock (c : Client) :
    (peerBlockLines c).count "[Peer]".data = 1 := by
  have h1 : ((([] : List Char)) == "[Peer]".data) = false := by decide
  have h2 : ("[Peer]".data == "[Peer]".data) = true := by decide
  have h3 : (("# ".data ++ c.name.data) == "[Peer]".data) = false :=
    beq_line_false rfl rfl (by decide)
  have h4 : (("PublicKey = ".data ++ c.public_key.data) == "[Peer]".data) = false :=
    beq_line_false rfl rfl (by decide)
  have h5 : (("AllowedIPs = ".data ++ c.assigned_ip.data ++ "/32".data
      ++ (match c.assigned_ip_v6 with
          | some v6 => ", ".data ++ v6.data ++ "/128".data
          | none => [])) == "[Peer]".data) = false :=
    beq_line_false rfl rfl (by decide)
  cases hk : c.preshared_key with
  | none =>
    simp [peerBlockLines, hk, List.count_append, List.count_cons, h1, h2, h3,
      h4, h5]
  | some k =>
    have h6 : (("PresharedKey = ".data ++ k.data) == "[Peer]".data) = false :=
      beq_line_false rfl rfl (by decide)
    simp [peerBlockLines, hk, List.count_append, List.count_cons, h1, h2, h3,
      h4, h5, h6]

theorem count_interface_peerBlock (c : Client) :
    (peerBlockLines c).count "[Interface]".data = 0 := by
  have h1 : ((([] : List Char)) == "[Interface]".data) = false := by decide
  have h2 : ("[Peer]".data == "[Interface]".data) = false := by decide
  have h3 : (("# ".data ++ c.name.data) == "[Interface]".data) = false :=
    beq_line_false rfl rfl (by decide)
  have h4 : (("PublicKey = ".data ++ c.public_key.data) == "[Interface]".data)
      = false :=
    beq_line_false rfl rfl (by decide)
  have h5 : (("AllowedIPs = ".data ++ c.assigned_ip.data ++ "/32".data
      ++ (match c.assigned_ip_v6 with
          | some v6 => ", ".data ++ v6.data ++ "/128".data
          | none => [])) == "[Interface]".data) = false :=
    beq_line_false rfl rfl (by decide)
  cases hk : c.preshared_key with
  | none =>
    simp [peerBlockLines, hk, List.count_append, List.count_cons, h1, h2, h3,
      h4, h5]
  | some k =>
    have h6 : (("PresharedKey = ".data ++ k.data) == "[Interface]".data)
        = false :=
      beq_line_false rfl rfl (by decide)
    simp [peerBlockLines, hk, List.count_append, List.count_cons, h1, h2, h3,
      h4, h5, h6]

theorem count_baseLines_interface (g : Group) (active : List Client) :
    List.count "[Interface]".data
      ["[Interface]".data,
       "PrivateKey = ".data ++ g.server_private_key.data,
       "Address = ".data ++ serverAddressValue g,
       "ListenPort = ".data ++ natDigits g.listen_port,
       "PostUp = ".data ++ joinSep "; ".data ((postUpRules g active).map String.data),
       "PostDown = ".data ++ joinSep "; ".data ((postDownRules g active).map String.data)]
      = 1 := by
  have h1 : ("[Interface]".data == "[Interface]".data) = true := by decide
  have h2 : (("PrivateKey = ".data ++ g.server_private_key.data)
      == "[Interface]".data) = false := beq_line_false rfl rfl (by decide)
  have h3 : (("Address = ".data ++ serverAddressValue g)
      == "[Interface]".data) = false := beq_line_false rfl rfl (by decide)
  have h4 : (("ListenPort = ".data ++ natDigits g.listen_port)
      == "[Interface]".data) = false := beq_line_false rfl rfl (by decide)
  have h5 : (("PostUp = ".data
      ++ joinSep "; ".data ((postUpRules g active).map String.data))
      == "[Interface]".data) = false := beq_line_false rfl rfl (by decide)
  have h6 : (("PostDown = ".data
      ++ joinSep "; ".data ((postDownRules g active).map String.data))
      == "[Interface]".data) = false := beq_line_false rfl rfl (by decide)
  simp [List.count_cons, h1, h2, h3, h4, h5, h6]

theorem count_baseLines_peer (g : Group) (active : List Client) :
    List.count "[Peer]".data
      ["[Interface]".data,
       "PrivateKey = ".data ++ g.server_private_key.data,
       "Address = ".data ++ serverAddressValue g,
       "ListenPort = ".data ++ natDigits g.listen_port,
       "PostUp = ".data ++ joinSep "; ".data ((postUpRules g active).map String.data),
       "PostDown = ".data ++ joinSep "; ".data ((postDownRules g active).map String.data)]
      = 0 := by
  have h1 : ("[Interface]".data == "[Peer]".data) = false := by decide
  have h2 : (("PrivateKey = ".data ++ g.server_private_key.data)
      == "[Peer]".data) = false := beq_line_false rfl rfl (by decide)
  have h3 : (("Address = ".data ++ serverAddressValue g)
      == "[Peer]".data) = false := beq_line_false rfl rfl (by decide)
  have h4 : (("ListenPort = ".data ++ natDigits g.listen_port)
      == "[Peer]".data) = false := beq_line_false rfl rfl (by decide)
  have h5 : (("PostUp = ".data
      ++ joinSep "; ".data ((postUpRules g active).map String.data))
      == "[Peer]".data) = false := beq_line_false rfl rfl (by decide)
  have h6 : (("PostDown = ".data
      ++ joinSep "; ".data ((postDownRules g active).map String.data))
      == "[Peer]".data) = false := beq_line_false rfl rfl (by decide)
  simp [List.count_cons, h1, h2, h3, h4, h5, h6]

/-- C2 (amended): provided that the interpolated columns contain no
newline — the group's key, addresses and ranges, and every active
client's name, keys and addresses — the rendered server configuration
contains exactly one `[Interface]` header line and exactly one `[Peer]`
header line per active client, and none for inactive clients.  (Without
the proviso a client name containing a newline injects extra stanza
headers; see the counterexample.) -/
theorem c2_amended_server_config_stanzas (g : Group) (clients : List Client)
    (hg : GroupNoNl g)
    (hc : ∀ c ∈ clients, c.is_active = true → ClientNoNl c) :
    countHeaderLines "[Interface]" (generateServerConfig g clients) = 1 ∧
    countHeaderLines "[Peer]" (generateServerConfig g clients) =
      (clients.filter (fun c => c.is_active)).length := by
  have hsplit := splitNl_generateServerConfig g clients hg hc
  unfold countHeaderLines
  rw [hsplit]
  simp only [serverConfigLines]
  rw [List.count_append, List.count_append, List.count_append,
    List.count_append]
  constructor
  · rw [count_baseLines_interface, count_flatMap]
    have hz : ((clients.filter (fun c => c.is_active)).map
        (fun x => (peerBlockLines x).count "[Interface]".data)).sum = 0 := by
      refine List.sum_eq_zero ?_
      intro x hx
      rcases List.mem_map.mp hx with ⟨c, _, rfl⟩
      exact count_interface_peerBlock c
    rw [hz]
    have h0 : List.count "[Interface]".data [([] : List Char)] = 0 := by decide
    rw [h0]
  · rw [count_baseLines_peer, count_flatMap]
    have hones : ((clients.filter (fun c => c.is_active)).map
        (fun x => (peerBlockLines x).count "[Peer]".data)) =
        ((clients.filter (fun c => c.is_active)).map (fun _ => (1 : Nat))) :=
      List.map_congr_left (fun c _ => count_peer_peerBlock c)
    rw [hones, sum_map_ones]
    have h0 : List.count "[Peer]".data [([] : List Char)] = 0 := by decide
    rw [h0]
    omega

set_option maxRecDepth 20000 in
/-- C2 counterexample: one active client whose unvalidated display name is
`x\n[Peer]` makes the rendered server config contain two `[Peer]` header
lines although the group has exactly one active client, so the
exactly-one-peer-stanza-per-active-client property fails without a
newline-freeness proviso. -/
theorem c2_counterexample_newline_injection :
    countHeaderLines "[Peer]" (generateServerConfig c2Group [c2ClientInjected])
      = 2 ∧
    ([c2ClientInjected].filter (fun c => c.is_active)).length = 1 ∧
    ¬ (2 = 1) := by
  refine ⟨by decide, by decide, by decide⟩

/-- Witness for the amended C2 theorem: a clean active client plus an
inactive client yield exactly one `[Interface]` line and one `[Peer]`
line. -/
theorem noNlOpt_none (o : Option String) (h : o = none) : NoNlOpt o := by
  intro v hv
  rw [h] at hv
  simp at hv

theorem c2_amended_server_config_stanzas_witness :
    countHeaderLines "[Interface]"
        (generateServerConfig c2Group [c2ClientClean, c2ClientInactive]) = 1 ∧
    countHeaderLines "[Peer]"
        (generateServerConfig c2Group [c2ClientClean, c2ClientInactive]) =
      ([c2ClientClean, c2ClientInactive].filter (fun c => c.is_active)).length :=
  c2_amended_server_config_stanzas c2Group [c2ClientClean, c2ClientInactive]
    ⟨by decide, by decide, by decide, noNlOpt_none _ rfl, noNlOpt_none _ rfl⟩
    (by
      intro c hcm hact
      rcases List.mem_cons.mp hcm with rfl | hcm
      · exact ⟨by decide, by decide, by decide, noNlOpt_none _ rfl,
          noNlOpt_none _ rfl⟩
      · rcases List.mem_singleton.mp hcm with rfl
        exact ⟨by decide, by decide, by decide, noNlOpt_none _ rfl,
          noNlOpt_none _ rfl⟩)

end WgWebui
